import Mathlib

/-!
Shallow embedding of the per-target collection engine of junos_exporter
(src/junos_collector.go) and proofs about it.

Modelling conventions:
- Go errors are plain strings.
- Go uint is modelled as Nat (values that occur are row counter values,
  no arithmetic other than division by 8 is performed on them).
- A Go panic (failed type assertion, out-of-range slice index) is modelled
  by the result none of an Option-valued function.
- The SNMP transport (package gosnmp, an external collaborator of the
  repository) is modelled as an environment: a per-target connect result
  plus, per table OID, the list of rows the walk delivers and an optional
  transport error reported after those rows.  Per gosnmp and section 6 of
  the spec, a row callback that returns an error aborts the walk early and
  that error becomes the walk result.
- Go slices of strings are modelled with their backing array so that the
  aliasing behaviour of append is visible: append reuses the backing array
  when len < cap and allocates a fresh one when len = cap.
- Concurrent per-target goroutines are modelled by running the targets in
  order and concatenating the emitted metrics; the properties proved here
  (per-target metric counts, values and labels) are invariant under the
  arbitrary interleaving the channel permits.
- The scope record carries two ghost fields, walked and errTrace, that
  record which table walks were started and every error observed, in
  order.  No modelled source behaviour reads them.
-/

namespace JunosExporter

/-- Error values produced by the transport or by metric construction,
modelled as the error message string. -/
abbrev GoError := String

/-- Dynamically typed value carried by an SNMP row (the Go interface value
gosnmp.SnmpPDU.Value).  A byte-string payload is modelled by the string it
converts to, an unsigned-integer payload by a Nat; other stands for every
further runtime type. -/
inductive GoValue where
  | bytes (b : String)
  | uintv (v : Nat)
  | other
deriving DecidableEq

/-- One row of a table walk: gosnmp.SnmpPDU with its fully qualified
object name and its dynamically typed value. -/
structure SnmpPDU where
  name : String
  value : GoValue
deriving DecidableEq

/-- A Go slice of strings together with its backing array: arr is the
backing array from the slice start up to the capacity, len is the slice
length, so the visible contents are the first len entries of arr and the
capacity is arr.length.  This carries enough state to model the aliasing
behaviour of Go append. -/
structure GoSlice where
  arr : List String
  len : Nat
deriving DecidableEq

/-- Visible contents of a slice. -/
def GoSlice.view (l : GoSlice) : List String := l.arr.take l.len

/-- The Go nil slice (the zero value of type list-of-string), which is what
indexing a missing key of a Go map of slices yields. -/
def nilSlice : GoSlice := ⟨[], 0⟩

/-- Go make of a string slice of length n: length n, capacity n, all
entries the empty string. -/
def makeSlice (n : Nat) : GoSlice := ⟨List.replicate n "", n⟩

/-- Go append of one element: returns the appended slice together with the
state of the original slice after the call.  When len < cap the write goes
into the shared backing array, so it is visible through the original
slice's backing array; when len = cap a fresh array is allocated and the
original slice is untouched. -/
def goAppend (l : GoSlice) (x : String) : GoSlice × GoSlice :=
  if l.len < l.arr.length then
    (⟨l.arr.set l.len x, l.len + 1⟩, ⟨l.arr.set l.len x, l.len⟩)
  else
    (⟨l.arr.take l.len ++ [x], l.len + 1⟩, l)

/-- prometheus.Desc: metric name, help text and the ordered variable label
names. -/
structure Desc where
  name : String
  help : String
  labelNames : List String
deriving DecidableEq

/-- An emitted constant metric: descriptor, gauge value and ordered label
values. -/
structure Metric where
  desc : Desc
  value : Nat
  labels : List String
deriving DecidableEq

/-- numberOfInterfaceLabels from junos_collector.go. -/
def numberOfInterfaceLabels : Nat := 2

/-- Ordered label names shared by the six interface descriptors (the list l
of the init function in junos_collector.go). -/
def interfaceLabelList : List String := ["name", "description", "target"]

/-- Descriptor junos_up (metric names carry the prefix constant junos_ of
the source spelled out). -/
def upDesc : Desc := ⟨"junos_up", "Scrape of target was successful", ["target"]⟩

/-- Descriptor junos_interface_receive_bytes. -/
def receiveBytesDesc : Desc :=
  ⟨"junos_interface_receive_bytes", "Received data in bytes", interfaceLabelList⟩

/-- Descriptor junos_interface_receive_errors. -/
def receiveErrorsDesc : Desc :=
  ⟨"junos_interface_receive_errors", "Number of errors caused by incoming packets", interfaceLabelList⟩

/-- Descriptor junos_interface_receive_drops. -/
def receiveDropsDesc : Desc :=
  ⟨"junos_interface_receive_drops", "Number of dropped incoming packets", interfaceLabelList⟩

/-- Descriptor junos_interface_transmit_bytes. -/
def transmitBytesDesc : Desc :=
  ⟨"junos_interface_transmit_bytes", "Transmitted data in bytes", interfaceLabelList⟩

/-- Descriptor junos_interface_transmit_errors. -/
def transmitErrorsDesc : Desc :=
  ⟨"junos_interface_transmit_errors", "Number of errors caused by outgoing packets", interfaceLabelList⟩

/-- Descriptor junos_interface_transmit_drops. -/
def transmitDropsDesc : Desc :=
  ⟨"junos_interface_transmit_drops", "Number of dropped outgoing packets", interfaceLabelList⟩

/-- prometheus.NewConstMetric: fails when the number of label values does
not match the descriptor's label names (inconsistent label cardinality). -/
def newConstMetric (desc : Desc) (value : Nat) (labelValues : List String) :
    Except GoError Metric :=
  if labelValues.length = desc.labelNames.length then .ok ⟨desc, value, labelValues⟩
  else .error "inconsistent label cardinality"

/-- Modelled from the spec: bitsToBytes is referenced by collectMetrics in
src/junos_collector.go but defined in a repository file that is not under
src/.  Spec section 4.2 defines it as the total function v / 8 over the
full unsigned domain. -/
def bitsToBytes (v : Nat) : Nat := v / 8

/-- Modelled from the spec: noConvert is referenced by collectMetrics in
src/junos_collector.go but defined in a repository file that is not under
src/.  Spec section 4.2 defines it as the identity on the full unsigned
domain. -/
def noConvert (v : Nat) : Nat := v

/-- Largest value of the Go type uint (64-bit). -/
def uintMax : Nat := 2 ^ 64 - 1

/-- Character-level model of strings.Split on the separator dot: splits at
every dot, keeping empty components.  Never returns the empty list. -/
def splitOnDot : List Char → List (List Char)
  | [] => [[]]
  | c :: cs =>
    if c = '.' then [] :: splitOnDot cs
    else
      match splitOnDot cs with
      | [] => [[c]]
      | r :: rs => (c :: r) :: rs

/-- getId from junos_collector.go: split the object name on dots and take
the last component. -/
def getId (oid : String) : String := String.mk ((splitOnDot oid.data).getLastD [])

/-- Lookup in the Go map of interface labels, modelled as an association
list (iteration order of the map is never used by the source). -/
def mapLookup : List (String × GoSlice) → String → Option GoSlice
  | [], _ => none
  | (k, v) :: m, k' => if k = k' then some v else mapLookup m k'

/-- Store a value under a key in the Go map model, overwriting an existing
binding. -/
def mapInsert : List (String × GoSlice) → String → GoSlice → List (String × GoSlice)
  | [], k, v => [(k, v)]
  | (k0, v0) :: m, k, v =>
    if k0 = k then (k0, v) :: m else (k0, v0) :: mapInsert m k v

/-- The per-target scope of junos_collector.go.  interfaceLabels, target
and err come from the source struct (target stands for the snmp session's
target field); metrics lists the metrics sent to the channel by this
scope, in order.  walked and errTrace are ghost instrumentation: walked
records the OID of every table walk that was started, errTrace every error
the engine observed, both in order; no modelled source behaviour reads
them. -/
structure Scope where
  interfaceLabels : List (String × GoSlice)
  target : String
  err : Option GoError
  metrics : List Metric
  walked : List String
  errTrace : List GoError
deriving DecidableEq

/-- handlePduAsLabel from junos_collector.go.  The Go type assertion of the
row value to a byte slice panics when the value is of another type, and
the slice write panics when the index is out of range; both panics are
modelled by the result none. -/
def handlePduAsLabel (index : Nat) (p : SnmpPDU) (s : Scope) : Option Scope :=
  let id := getId p.name
  let l := match mapLookup s.interfaceLabels id with
    | some l => l
    | none => makeSlice numberOfInterfaceLabels
  match p.value with
  | .bytes b =>
    if index < l.len then
      some { s with interfaceLabels := mapInsert s.interfaceLabels id ⟨l.arr.set index b, l.len⟩ }
    else none
  | _ => none

/-- handlePduAsMetric from junos_collector.go.  The Go type assertion of
the row value to uint panics on any other type (modelled by none).  The
label slice is the append of the target to the map lookup (the nil slice
when the row index is unknown); when metric construction fails the error
is returned to the walk callback.  The map write-back models the aliasing
of the append result with the stored entry's backing array. -/
def handlePduAsMetric (desc : Desc) (converter : Nat → Nat) (p : SnmpPDU) (s : Scope) :
    Option (Scope × Option GoError) :=
  let id := getId p.name
  match p.value with
  | .uintv v =>
    let entry := mapLookup s.interfaceLabels id
    let (res, backing) := goAppend (entry.getD nilSlice) s.target
    let labels :=
      match entry with
      | some _ => mapInsert s.interfaceLabels id backing
      | none => s.interfaceLabels
    match newConstMetric desc (converter v) res.view with
    | .ok m => some ({ s with interfaceLabels := labels, metrics := s.metrics ++ [m] }, none)
    | .error e => some ({ s with interfaceLabels := labels }, some e)
  | _ => none

/-- Deliver the rows of one walk to the row callback: a callback error
aborts the walk and becomes its result, a callback panic propagates. -/
def runWalkRows (cb : SnmpPDU → Scope → Option (Scope × Option GoError)) :
    List SnmpPDU → Scope → Option (Scope × Option GoError)
  | [], s => some (s, none)
  | p :: ps, s =>
    match cb p s with
    | none => none
    | some (s', some e) => some (s', some e)
    | some (s', none) => runWalkRows cb ps s'

/-- The SNMP transport environment seen by one target's session: the result
of Connect, and for each table OID the rows its walk delivers together
with an optional transport error reported after those rows. -/
structure SnmpEnv where
  connectErr : Option GoError
  tables : String → List SnmpPDU × Option GoError

/-- gosnmp Walk against the environment: the callback is invoked on each
delivered row; a callback error ends the walk early and is returned
(section 6 of the spec), otherwise the table's transport error, if any, is
returned after the rows. -/
def snmpWalk (env : SnmpEnv) (oid : String)
    (cb : SnmpPDU → Scope → Option (Scope × Option GoError)) (s : Scope) :
    Option (Scope × Option GoError) :=
  match runWalkRows cb (env.tables oid).1 s with
  | none => none
  | some (s', some e) => some (s', some e)
  | some (s', none) => some (s', (env.tables oid).2)

/-- Record an observed error: the sticky error is set only if still unset
(first error wins); the ghost trace always records it. -/
def recordErr (s : Scope) (e : GoError) : Scope :=
  { s with
    err := match s.err with | none => some e | some e0 => some e0,
    errTrace := s.errTrace ++ [e] }

/-- fetchInterfaceLabelFromOid from junos_collector.go: walk the label
table with a callback that records each row in the label map and returns
nil; a walk error is recorded sticky.  The walked ghost field logs the
walk. -/
def fetchInterfaceLabelFromOid (env : SnmpEnv) (oid : String) (index : Nat)
    (s : Scope) : Option Scope :=
  match snmpWalk env oid
      (fun p t => (handlePduAsLabel index p t).map (fun t' => (t', none)))
      { s with walked := s.walked ++ [oid] } with
  | none => none
  | some (s', none) => some s'
  | some (s', some e) => some (recordErr s' e)

/-- fetchInterfaceMetricFromOid from junos_collector.go: walk a counter
table with handlePduAsMetric as row callback; a walk error (transport or
row-level) is recorded sticky.  The walked ghost field logs the walk. -/
def fetchInterfaceMetricFromOid (env : SnmpEnv) (oid : String) (desc : Desc)
    (converter : Nat → Nat) (s : Scope) : Option Scope :=
  match snmpWalk env oid (handlePduAsMetric desc converter)
      { s with walked := s.walked ++ [oid] } with
  | none => none
  | some (s', none) => some s'
  | some (s', some e) => some (recordErr s' e)

/-- Table OID of the interface name label walk. -/
def oidIfName : String := ".1.3.6.1.2.1.31.1.1.1.1"

/-- Table OID of the interface description label walk. -/
def oidIfAlias : String := ".1.3.6.1.2.1.31.1.1.1.18"

/-- Table OID of the receive bytes counter walk. -/
def oidInOctets : String := ".1.3.6.1.2.1.2.2.1.10"

/-- Table OID of the transmit bytes counter walk. -/
def oidOutOctets : String := ".1.3.6.1.2.1.2.2.1.16"

/-- Table OID of the receive drops counter walk. -/
def oidInDiscards : String := ".1.3.6.1.2.1.2.2.1.13"

/-- Table OID of the receive errors counter walk. -/
def oidInErrors : String := ".1.3.6.1.2.1.2.2.1.14"

/-- Table OID of the transmit drops counter walk. -/
def oidOutDiscards : String := ".1.3.6.1.2.1.2.2.1.19"

/-- Table OID of the transmit errors counter walk. -/
def oidOutErrors : String := ".1.3.6.1.2.1.2.2.1.20"

/-- All eight table OIDs in the order collectMetrics walks them. -/
def allWalkOids : List String :=
  [oidIfName, oidIfAlias, oidInOctets, oidOutOctets,
   oidInDiscards, oidInErrors, oidOutDiscards, oidOutErrors]

/-- The walk sequence of collectMetrics from junos_collector.go: the two
label walks followed by the six counter walks, in source order, each bound
to its OID, descriptor and converter. -/
def runAllWalks (env : SnmpEnv) (s : Scope) : Option Scope :=
  (some s).bind (fetchInterfaceLabelFromOid env oidIfName 0)
    |>.bind (fetchInterfaceLabelFromOid env oidIfAlias 1)
    |>.bind (fetchInterfaceMetricFromOid env oidInOctets receiveBytesDesc bitsToBytes)
    |>.bind (fetchInterfaceMetricFromOid env oidOutOctets transmitBytesDesc bitsToBytes)
    |>.bind (fetchInterfaceMetricFromOid env oidInDiscards receiveDropsDesc noConvert)
    |>.bind (fetchInterfaceMetricFromOid env oidInErrors receiveErrorsDesc noConvert)
    |>.bind (fetchInterfaceMetricFromOid env oidOutDiscards transmitDropsDesc noConvert)
    |>.bind (fetchInterfaceMetricFromOid env oidOutErrors transmitErrorsDesc noConvert)

/-- collectMetrics from junos_collector.go: Connect first; on a connect
error with the sticky error still unset (always the case for the fresh
scope collectForTarget builds), record it and return without walking;
otherwise perform the eight walks in order. -/
def collectMetrics (env : SnmpEnv) (s : Scope) : Option Scope :=
  match env.connectErr with
  | some e =>
    if s.err = none then some (recordErr s e)
    else runAllWalks env (recordErr s e)
  | none => runAllWalks env s

/-- The fresh scope collectForTarget builds for one target. -/
def initScope (target : String) : Scope := ⟨[], target, none, [], [], []⟩

/-- upMetric from junos_collector.go: the reachability gauge for one
target; the construction error is discarded by the source (it cannot occur,
the arity of upDesc is one). -/
def upMetric (value : Nat) (target : String) : Metric :=
  match newConstMetric upDesc value [target] with
  | .ok m => m
  | .error _ => ⟨upDesc, value, [target]⟩

/-- collectForTarget from junos_collector.go: run collectMetrics on a fresh
scope, then emit the reachability metric: value 0 when a sticky error was
recorded, value 1 otherwise. -/
def collectForTarget (env : SnmpEnv) (target : String) : Option Scope :=
  match collectMetrics env (initScope target) with
  | none => none
  | some s =>
    match s.err with
    | some _ => some { s with metrics := s.metrics ++ [upMetric 0 target] }
    | none => some { s with metrics := s.metrics ++ [upMetric 1 target] }

/-- The collector struct: the configured targets and the shared community
credential. -/
structure JunosCollector where
  targets : List String
  community : String

/-- Describe from junos_collector.go: the fixed list of the seven
descriptors, in source send order, independent of the collector's
configuration. -/
def describe (_c : JunosCollector) : List Desc :=
  [upDesc, receiveBytesDesc, receiveErrorsDesc, receiveDropsDesc,
   transmitBytesDesc, transmitDropsDesc, transmitErrorsDesc]

/-- Collect from junos_collector.go over a target list: one collection per
target against that target's environment, metrics concatenated in target
order (the concurrent goroutines of the source may interleave their sends
arbitrarily; the per-target properties proved below do not depend on the
interleaving).  A panic in any target's goroutine kills the process,
modelled by none. -/
def collect (net : String → SnmpEnv) : List String → Option (List Metric)
  | [] => some []
  | t :: ts =>
    match collectForTarget (net t) t with
    | none => none
    | some s =>
      match collect net ts with
      | none => none
      | some ms => some (s.metrics ++ ms)

/-- Collect entry point of the collector struct. -/
def collectAll (c : JunosCollector) (net : String → SnmpEnv) : Option (List Metric) :=
  collect net c.targets

/-- Discriminator for the byte-string payload variant. -/
def GoValue.isBytes : GoValue → Bool
  | .bytes _ => true
  | _ => false

/-- Discriminator for the unsigned-integer payload variant. -/
def GoValue.isUint : GoValue → Bool
  | .uintv _ => true
  | _ => false

/-- The sticky error equals the head of the ghost error trace: the first
observed error wins. -/
def errInv (s : Scope) : Prop := s.err = s.errTrace.head?

/-- Relation between a scope and its state after some row handling: the
error fields, the walked trace and the target are untouched, and the
emitted metrics grow by a suffix all of whose elements satisfy P. -/
def ScopeStep (P : Metric → Prop) (s s' : Scope) : Prop :=
  s'.err = s.err ∧ s'.errTrace = s.errTrace ∧ s'.walked = s.walked ∧
  s'.target = s.target ∧
  ∃ ms, s'.metrics = s.metrics ++ ms ∧ ∀ m ∈ ms, P m

/-- Relation between a scope and its state after a sequence of walks with
the given OIDs: the walked ghost trace grows by exactly those OIDs, the
target is untouched, the first-error invariant is preserved, and the
emitted metrics grow by a suffix all of whose elements satisfy P. -/
def FetchSeq (P : Metric → Prop) (oids : List String) (s s' : Scope) : Prop :=
  s'.walked = s.walked ++ oids ∧ s'.target = s.target ∧ (errInv s → errInv s') ∧
  ∃ ms, s'.metrics = s.metrics ++ ms ∧ ∀ m ∈ ms, P m

/-- Every stored label slice has its length equal to its capacity (Go
entries are created by make with length equal to capacity
numberOfInterfaceLabels, and label writes change neither). -/
def sliceInvariant (s : Scope) : Prop :=
  ∀ kv ∈ s.interfaceLabels, kv.2.len = kv.2.arr.length

/-- Ordered spec-side list of the label walks: OID and label slot, as
enumerated by the spec. -/
def specLabelWalks : List (String × Nat) := [(oidIfName, 0), (oidIfAlias, 1)]

/-- Ordered spec-side list of the counter walks: OID, descriptor and
converter, as enumerated by the spec. -/
def specCounterWalks : List (String × Desc × (Nat → Nat)) :=
  [(oidInOctets, receiveBytesDesc, bitsToBytes),
   (oidOutOctets, transmitBytesDesc, bitsToBytes),
   (oidInDiscards, receiveDropsDesc, noConvert),
   (oidInErrors, receiveErrorsDesc, noConvert),
   (oidOutDiscards, transmitDropsDesc, noConvert),
   (oidOutErrors, transmitErrorsDesc, noConvert)]

/-- Walk sequence described by a label-walk list followed by a counter-walk
list (used to compare the engine against the spec's enumeration). -/
def walkSeqOfLists (env : SnmpEnv) (ls : List (String × Nat))
    (cs : List (String × Desc × (Nat → Nat))) (s : Scope) : Option Scope :=
  cs.foldl (fun acc w => acc.bind (fetchInterfaceMetricFromOid env w.1 w.2.1 w.2.2))
    (ls.foldl (fun acc w => acc.bind (fetchInterfaceLabelFromOid env w.1 w.2)) (some s))

/-- Table data with no rows for any OID. -/
def emptyTables : String → List SnmpPDU × Option GoError := fun _ => ([], none)

/-- Environment of a healthy, empty device: connect succeeds, every walk
delivers no rows. -/
def netOkW : SnmpEnv := ⟨none, emptyTables⟩

/-- Environment of an unreachable device: connect fails. -/
def netFailW : SnmpEnv := ⟨some "connection timeout", emptyTables⟩

/-- Environment where both label walks are empty but the receive-bytes
counter walk delivers one row with index 9: index 9 was never seen in a
label walk. -/
def netC4 : SnmpEnv :=
  ⟨none, fun oid =>
    if oid = oidInOctets then ([⟨oidInOctets ++ ".9", GoValue.uintv 80⟩], none)
    else ([], none)⟩

/-- Environment where the name label walk knows index 9, the receive-bytes
counter walk delivers a failing row (unknown index 7) followed by a row
for the known index 9, and the later receive-drops walk has one row for
index 9. -/
def netC6 : SnmpEnv :=
  ⟨none, fun oid =>
    if oid = oidIfName then ([⟨oidIfName ++ ".9", GoValue.bytes "ge-0/0/0"⟩], none)
    else if oid = oidInOctets then
      ([⟨oidInOctets ++ ".7", GoValue.uintv 80⟩, ⟨oidInOctets ++ ".9", GoValue.uintv 80⟩], none)
    else if oid = oidInDiscards then ([⟨oidInDiscards ++ ".9", GoValue.uintv 5⟩], none)
    else ([], none)⟩

/-- A scope whose label table knows index 9 with both label slots filled. -/
def scope10 : Scope := ⟨[("9", ⟨["a", "b"], 2⟩)], "t", none, [], [], []⟩

/-- Environment whose interface-name label walk delivers a single row whose
value is an unsigned integer instead of a byte string. -/
def netC3 : SnmpEnv :=
  ⟨none, fun oid =>
    if oid = oidIfName then ([⟨oidIfName ++ ".9", GoValue.uintv 7⟩], none)
    else ([], none)⟩

/-- Every stored label slice has length numberOfInterfaceLabels (Go entries
are created only by make of that length, and label writes keep it). -/
def labelLenInvariant (s : Scope) : Prop :=
  ∀ kv ∈ s.interfaceLabels, kv.2.len = numberOfInterfaceLabels

/-! Lemmas about splitOnDot and getId. -/

theorem splitOnDot_ne_nil : ∀ l : List Char, splitOnDot l ≠ []
  | [] => by simp [splitOnDot]
  | c :: cs => by
    by_cases hc : c = '.'
    · simp [splitOnDot, hc]
    · simp only [splitOnDot, if_neg hc]
      cases h : splitOnDot cs <;> simp

theorem splitOnDot_no_dot : ∀ l : List Char, '.' ∉ l → splitOnDot l = [l]
  | [], _ => rfl
  | c :: cs, h => by
    have hc : ¬ c = '.' := fun he => h (he ▸ List.mem_cons_self c cs)
    have ih := splitOnDot_no_dot cs (fun hm => h (List.mem_cons_of_mem c hm))
    simp [splitOnDot, hc, ih]

theorem splitOnDot_two_le : ∀ l : List Char, '.' ∈ l → 2 ≤ (splitOnDot l).length
  | c :: cs, h => by
    by_cases hc : c = '.'
    · have h1 : 0 < (splitOnDot cs).length :=
        List.length_pos.mpr (splitOnDot_ne_nil cs)
      simp only [splitOnDot, if_pos hc, List.length_cons]
      omega
    · have hmem : '.' ∈ cs := by
        rcases List.mem_cons.mp h with he | hm
        · exact absurd he.symm hc
        · exact hm
      have ih := splitOnDot_two_le cs hmem
      simp only [splitOnDot, if_neg hc]
      cases hs : splitOnDot cs with
      | nil => exact absurd hs (splitOnDot_ne_nil cs)
      | cons r rs =>
        rw [hs] at ih
        simpa using ih

theorem getLastD_irrel {α : Type} : ∀ (l : List α), l ≠ [] → ∀ d d' : α,
    l.getLastD d = l.getLastD d'
  | [], h, _, _ => absurd rfl h
  | _ :: l, _, d, d' => by rw [List.getLastD_cons, List.getLastD_cons]

theorem splitOnDot_cons_dot (l : List Char) : splitOnDot ('.' :: l) = [] :: splitOnDot l := by
  simp [splitOnDot]

theorem splitOnDot_cons_ne {x : Char} (hx : ¬ x = '.') (l : List Char) (r : List Char)
    (rs : List (List Char)) (h : splitOnDot l = r :: rs) :
    splitOnDot (x :: l) = (x :: r) :: rs := by
  simp [splitOnDot, hx, h]

theorem splitOnDot_last_append : ∀ xs ys : List Char,
    (splitOnDot (xs ++ '.' :: ys)).getLastD [] = (splitOnDot ys).getLastD []
  | [], ys => by
    rw [List.nil_append, splitOnDot_cons_dot, List.getLastD_cons]
  | x :: xs, ys => by
    have ih := splitOnDot_last_append xs ys
    by_cases hx : x = '.'
    · subst hx
      rw [List.cons_append, splitOnDot_cons_dot, List.getLastD_cons]
      exact ih
    · have hmem : '.' ∈ xs ++ '.' :: ys := List.mem_append_right xs (List.mem_cons_self _ _)
      have h2 := splitOnDot_two_le _ hmem
      cases hr : splitOnDot (xs ++ '.' :: ys) with
      | nil => exact absurd hr (splitOnDot_ne_nil _)
      | cons r rs =>
        have hrs : rs ≠ [] := by
          rw [hr] at h2
          simp only [List.length_cons] at h2
          exact List.ne_nil_of_length_pos (by omega)
        rw [List.cons_append, splitOnDot_cons_ne hx _ r rs hr, List.getLastD_cons]
        rw [hr, List.getLastD_cons] at ih
        rw [getLastD_irrel rs hrs (x :: r) r]
        exact ih

/-! Lemmas about the label map model. -/

theorem mapLookup_cons_self {k : String} {v0 : GoSlice} {m : List (String × GoSlice)} :
    mapLookup ((k, v0) :: m) k = some v0 := by
  simp [mapLookup]

theorem mapLookup_cons_ne {k0 k : String} {v0 : GoSlice} {m : List (String × GoSlice)}
    (hk : ¬ k0 = k) : mapLookup ((k0, v0) :: m) k = mapLookup m k := by
  simp [mapLookup, hk]

theorem mapInsert_cons_self {k : String} {v0 v : GoSlice} {m : List (String × GoSlice)} :
    mapInsert ((k, v0) :: m) k v = (k, v) :: m := by
  simp [mapInsert]

theorem mapInsert_cons_ne {k0 k : String} {v0 v : GoSlice} {m : List (String × GoSlice)}
    (hk : ¬ k0 = k) : mapInsert ((k0, v0) :: m) k v = (k0, v0) :: mapInsert m k v := by
  simp [mapInsert, hk]

theorem mapLookup_mem (m : List (String × GoSlice)) (k : String) (v : GoSlice) :
    mapLookup m k = some v → (k, v) ∈ m := by
  induction m with
  | nil => intro h; simp [mapLookup] at h
  | cons kv0 m ih =>
    obtain ⟨k0, v0⟩ := kv0
    by_cases hk : k0 = k
    · subst hk
      rw [mapLookup_cons_self]
      intro hv
      cases hv
      exact List.mem_cons_self _ _
    · rw [mapLookup_cons_ne hk]
      intro h
      exact List.mem_cons_of_mem _ (ih h)

theorem mapInsert_lookup_self (m : List (String × GoSlice)) (k : String) (v : GoSlice) :
    mapLookup m k = some v → mapInsert m k v = m := by
  induction m with
  | nil => intro h; simp [mapLookup] at h
  | cons kv0 m ih =>
    obtain ⟨k0, v0⟩ := kv0
    by_cases hk : k0 = k
    · subst hk
      rw [mapLookup_cons_self]
      intro hv
      cases hv
      rw [mapInsert_cons_self]
    · rw [mapLookup_cons_ne hk, mapInsert_cons_ne hk]
      intro h
      rw [ih h]

theorem mem_mapInsert (m : List (String × GoSlice)) (k : String) (v : GoSlice)
    (kv : String × GoSlice) : kv ∈ mapInsert m k v → kv = (k, v) ∨ kv ∈ m := by
  induction m with
  | nil => simp [mapInsert]
  | cons kv0 m ih =>
    obtain ⟨k0, v0⟩ := kv0
    by_cases hk : k0 = k
    · subst hk
      rw [mapInsert_cons_self]
      intro h
      rcases List.mem_cons.mp h with h | h
      · exact Or.inl h
      · exact Or.inr (List.mem_cons_of_mem _ h)
    · rw [mapInsert_cons_ne hk]
      intro h
      rcases List.mem_cons.mp h with h | h
      · exact Or.inr (h ▸ List.mem_cons_self _ _)
      · rcases ih h with h' | h'
        · exact Or.inl h'
        · exact Or.inr (List.mem_cons_of_mem _ h')

/-! Frame lemmas: what the row handlers and the walk engine leave untouched. -/

theorem ScopeStep.refl (P : Metric → Prop) (s : Scope) : ScopeStep P s s :=
  ⟨rfl, rfl, rfl, rfl, [], by simp, by simp⟩

theorem ScopeStep.scopeComp {P : Metric → Prop} {s t u : Scope}
    (h1 : ScopeStep P s t) (h2 : ScopeStep P t u) : ScopeStep P s u := by
  obtain ⟨e1, t1, w1, g1, ms1, hm1, hp1⟩ := h1
  obtain ⟨e2, t2, w2, g2, ms2, hm2, hp2⟩ := h2
  refine ⟨e2.trans e1, t2.trans t1, w2.trans w1, g2.trans g1, ms1 ++ ms2, ?_, ?_⟩
  · rw [hm2, hm1, List.append_assoc]
  · intro m hm
    rcases List.mem_append.mp hm with h | h
    · exact hp1 m h
    · exact hp2 m h

theorem newConstMetric_ok_desc {desc : Desc} {v : Nat} {lv : List String} {m : Metric}
    (h : newConstMetric desc v lv = .ok m) : m.desc = desc := by
  unfold newConstMetric at h
  split at h
  · cases h; rfl
  · cases h

theorem handlePduAsLabel_step (P : Metric → Prop) (index : Nat) (p : SnmpPDU)
    (s s' : Scope) (h : handlePduAsLabel index p s = some s') : ScopeStep P s s' := by
  cases hv : p.value with
  | bytes b =>
    simp only [handlePduAsLabel, hv] at h
    split at h
    · cases h
      exact ⟨rfl, rfl, rfl, rfl, [], by simp, by simp⟩
    · cases h
  | uintv v => simp [handlePduAsLabel, hv] at h
  | other => simp [handlePduAsLabel, hv] at h

theorem handlePduAsMetric_step (desc : Desc) (cv : Nat → Nat) (p : SnmpPDU)
    (s : Scope) (r : Scope × Option GoError) (h : handlePduAsMetric desc cv p s = some r) :
    ScopeStep (fun m => m.desc = desc) s r.1 := by
  cases hv : p.value with
  | bytes b => simp [handlePduAsMetric, hv] at h
  | uintv v =>
    simp only [handlePduAsMetric, hv] at h
    split at h
    · next m hmk =>
      cases h
      refine ⟨rfl, rfl, rfl, rfl, [m], rfl, ?_⟩
      intro m' hm'
      rw [List.mem_singleton.mp hm']
      exact newConstMetric_ok_desc hmk
    · next e hmk =>
      cases h
      exact ⟨rfl, rfl, rfl, rfl, [], by simp, by simp⟩
  | other => simp [handlePduAsMetric, hv] at h

theorem runWalkRows_step {P : Metric → Prop}
    {cb : SnmpPDU → Scope → Option (Scope × Option GoError)}
    (hcb : ∀ p s r, cb p s = some r → ScopeStep P s r.1) :
    ∀ (rows : List SnmpPDU) (s : Scope) (r : Scope × Option GoError),
      runWalkRows cb rows s = some r → ScopeStep P s r.1
  | [], s, r => by
    intro h
    cases h
    exact ScopeStep.refl P s
  | p :: ps, s, r => by
    intro h
    unfold runWalkRows at h
    cases hc : cb p s with
    | none => rw [hc] at h; cases h
    | some q =>
      obtain ⟨s1, e?⟩ := q
      cases e? with
      | none =>
        rw [hc] at h
        simp only at h
        exact (hcb p s (s1, none) hc).scopeComp (runWalkRows_step hcb ps s1 r h)
      | some e =>
        rw [hc] at h
        simp only at h
        cases h
        exact hcb p s (s1, some e) hc

theorem snmpWalk_step {P : Metric → Prop} {env : SnmpEnv} {oid : String}
    {cb : SnmpPDU → Scope → Option (Scope × Option GoError)}
    (hcb : ∀ p s r, cb p s = some r → ScopeStep P s r.1)
    (s : Scope) (r : Scope × Option GoError) (h : snmpWalk env oid cb s = some r) :
    ScopeStep P s r.1 := by
  unfold snmpWalk at h
  cases hw : runWalkRows cb (env.tables oid).1 s with
  | none => rw [hw] at h; cases h
  | some q =>
    obtain ⟨s1, e?⟩ := q
    have hstep := runWalkRows_step hcb _ s (s1, e?) hw
    cases e? with
    | none => rw [hw] at h; simp only at h; cases h; exact hstep
    | some e => rw [hw] at h; simp only at h; cases h; exact hstep

theorem recordErr_fields (s : Scope) (e : GoError) :
    (recordErr s e).walked = s.walked ∧ (recordErr s e).target = s.target ∧
    (recordErr s e).metrics = s.metrics ∧ (recordErr s e).interfaceLabels = s.interfaceLabels :=
  ⟨rfl, rfl, rfl, rfl⟩

theorem recordErr_errInv {s : Scope} (e : GoError) (h : errInv s) : errInv (recordErr s e) := by
  unfold errInv at h ⊢
  unfold recordErr
  cases ht : s.errTrace with
  | nil =>
    rw [ht] at h
    simp only [List.head?] at h
    simp [h, ht]
  | cons t ts =>
    rw [ht] at h
    simp only [List.head?] at h
    simp [h, ht]

theorem recordErr_first {s : Scope} (e : GoError) (h : s.err = none) :
    (recordErr s e).err = some e := by
  unfold recordErr
  simp [h]

theorem FetchSeq.fetchComp {P : Metric → Prop} {o1 o2 : List String} {s t u : Scope}
    (h1 : FetchSeq P o1 s t) (h2 : FetchSeq P o2 t u) : FetchSeq P (o1 ++ o2) s u := by
  obtain ⟨w1, g1, i1, ms1, hm1, hp1⟩ := h1
  obtain ⟨w2, g2, i2, ms2, hm2, hp2⟩ := h2
  refine ⟨by rw [w2, w1, List.append_assoc], g2.trans g1, fun hi => i2 (i1 hi),
    ms1 ++ ms2, by rw [hm2, hm1, List.append_assoc], ?_⟩
  intro m hm
  rcases List.mem_append.mp hm with h | h
  · exact hp1 m h
  · exact hp2 m h

theorem FetchSeq.weaken {P Q : Metric → Prop} {oids : List String} {s s' : Scope}
    (h : FetchSeq P oids s s') (hpq : ∀ m, P m → Q m) : FetchSeq Q oids s s' := by
  obtain ⟨w, g, i, ms, hm, hp⟩ := h
  exact ⟨w, g, i, ms, hm, fun m hmem => hpq m (hp m hmem)⟩

theorem ScopeStep.keepInv {P : Metric → Prop} {s s' : Scope} (h : ScopeStep P s s')
    (hi : JunosExporter.errInv s) : JunosExporter.errInv s' := by
  obtain ⟨he, ht, _, _, _⟩ := h
  unfold JunosExporter.errInv at hi ⊢
  rw [he, ht]
  exact hi

theorem fetchInterfaceLabelFromOid_step (P : Metric → Prop) (env : SnmpEnv) (oid : String)
    (index : Nat) (s s' : Scope) (h : fetchInterfaceLabelFromOid env oid index s = some s') :
    FetchSeq P [oid] s s' := by
  unfold fetchInterfaceLabelFromOid at h
  set s0 : Scope := { s with walked := s.walked ++ [oid] } with hs0
  have hcb : ∀ p t r, ((handlePduAsLabel index p t).map (fun t' => (t', none)) :
      Option (Scope × Option GoError)) = some r → ScopeStep P t r.1 := by
    intro p t r hr
    rcases Option.map_eq_some'.mp hr with ⟨t', ht', hrt⟩
    cases hrt
    exact handlePduAsLabel_step P index p t t' ht'
  cases hw : snmpWalk env oid (fun p t => (handlePduAsLabel index p t).map (fun t' => (t', none))) s0 with
  | none => rw [hw] at h; cases h
  | some q =>
    obtain ⟨s1, e?⟩ := q
    have hstep : ScopeStep P s0 s1 := snmpWalk_step hcb s0 (s1, e?) hw
    obtain ⟨he, ht, hwk, hg, ms, hm, hp⟩ := hstep
    cases e? with
    | none =>
      rw [hw] at h
      simp only at h
      cases h
      refine ⟨by rw [hwk], by rw [hg], ?_, ms, hm, hp⟩
      intro hi
      exact ScopeStep.keepInv (P := P) ⟨he, ht, hwk, hg, ms, hm, hp⟩ hi
    | some e =>
      rw [hw] at h
      simp only at h
      cases h
      refine ⟨by rw [(recordErr_fields s1 e).1, hwk], by rw [(recordErr_fields s1 e).2.1, hg], ?_,
        ms, by rw [(recordErr_fields s1 e).2.2.1, hm], hp⟩
      intro hi
      exact recordErr_errInv e (ScopeStep.keepInv (P := P) ⟨he, ht, hwk, hg, ms, hm, hp⟩ hi)

theorem fetchInterfaceMetricFromOid_step (env : SnmpEnv) (oid : String) (desc : Desc)
    (cv : Nat → Nat) (s s' : Scope) (h : fetchInterfaceMetricFromOid env oid desc cv s = some s') :
    FetchSeq (fun m => m.desc = desc) [oid] s s' := by
  unfold fetchInterfaceMetricFromOid at h
  set s0 : Scope := { s with walked := s.walked ++ [oid] } with hs0
  have hcb : ∀ p t r, handlePduAsMetric desc cv p t = some r →
      ScopeStep (fun m => m.desc = desc) t r.1 :=
    fun p t r hr => handlePduAsMetric_step desc cv p t r hr
  cases hw : snmpWalk env oid (handlePduAsMetric desc cv) s0 with
  | none => rw [hw] at h; cases h
  | some q =>
    obtain ⟨s1, e?⟩ := q
    have hstep : ScopeStep (fun m => m.desc = desc) s0 s1 := snmpWalk_step hcb s0 (s1, e?) hw
    obtain ⟨he, ht, hwk, hg, ms, hm, hp⟩ := hstep
    cases e? with
    | none =>
      rw [hw] at h
      simp only at h
      cases h
      refine ⟨by rw [hwk], by rw [hg], ?_, ms, hm, hp⟩
      intro hi
      exact ScopeStep.keepInv (P := fun m => m.desc = desc) ⟨he, ht, hwk, hg, ms, hm, hp⟩ hi
    | some e =>
      rw [hw] at h
      simp only at h
      cases h
      refine ⟨by rw [(recordErr_fields s1 e).1, hwk], by rw [(recordErr_fields s1 e).2.1, hg], ?_,
        ms, by rw [(recordErr_fields s1 e).2.2.1, hm], hp⟩
      intro hi
      exact recordErr_errInv e
        (ScopeStep.keepInv (P := fun m => m.desc = desc) ⟨he, ht, hwk, hg, ms, hm, hp⟩ hi)

theorem runAllWalks_step (env : SnmpEnv) (s s' : Scope) (h : runAllWalks env s = some s') :
    FetchSeq (fun m => m.desc ≠ upDesc) allWalkOids s s' := by
  unfold runAllWalks at h
  rcases Option.bind_eq_some.mp h with ⟨s7, h, hf8⟩
  rcases Option.bind_eq_some.mp h with ⟨s6, h, hf7⟩
  rcases Option.bind_eq_some.mp h with ⟨s5, h, hf6⟩
  rcases Option.bind_eq_some.mp h with ⟨s4, h, hf5⟩
  rcases Option.bind_eq_some.mp h with ⟨s3, h, hf4⟩
  rcases Option.bind_eq_some.mp h with ⟨s2, h, hf3⟩
  rcases Option.bind_eq_some.mp h with ⟨s1, h, hf2⟩
  rw [Option.some_bind] at h
  have A1 : FetchSeq (fun m => m.desc ≠ upDesc) [oidIfName] s s1 :=
    fetchInterfaceLabelFromOid_step _ env _ 0 s s1 h
  have A2 : FetchSeq (fun m => m.desc ≠ upDesc) [oidIfAlias] s1 s2 :=
    fetchInterfaceLabelFromOid_step _ env _ 1 s1 s2 hf2
  have A3 : FetchSeq (fun m => m.desc ≠ upDesc) [oidInOctets] s2 s3 :=
    (fetchInterfaceMetricFromOid_step env _ receiveBytesDesc bitsToBytes s2 s3 hf3).weaken
      (fun m hm => by rw [hm]; decide)
  have A4 : FetchSeq (fun m => m.desc ≠ upDesc) [oidOutOctets] s3 s4 :=
    (fetchInterfaceMetricFromOid_step env _ transmitBytesDesc bitsToBytes s3 s4 hf4).weaken
      (fun m hm => by rw [hm]; decide)
  have A5 : FetchSeq (fun m => m.desc ≠ upDesc) [oidInDiscards] s4 s5 :=
    (fetchInterfaceMetricFromOid_step env _ receiveDropsDesc noConvert s4 s5 hf5).weaken
      (fun m hm => by rw [hm]; decide)
  have A6 : FetchSeq (fun m => m.desc ≠ upDesc) [oidInErrors] s5 s6 :=
    (fetchInterfaceMetricFromOid_step env _ receiveErrorsDesc noConvert s5 s6 hf6).weaken
      (fun m hm => by rw [hm]; decide)
  have A7 : FetchSeq (fun m => m.desc ≠ upDesc) [oidOutDiscards] s6 s7 :=
    (fetchInterfaceMetricFromOid_step env _ transmitDropsDesc noConvert s6 s7 hf7).weaken
      (fun m hm => by rw [hm]; decide)
  have A8 : FetchSeq (fun m => m.desc ≠ upDesc) [oidOutErrors] s7 s' :=
    (fetchInterfaceMetricFromOid_step env _ transmitErrorsDesc noConvert s7 s' hf8).weaken
      (fun m hm => by rw [hm]; decide)
  exact ((((((A1.fetchComp A2).fetchComp A3).fetchComp A4).fetchComp A5).fetchComp A6).fetchComp A7).fetchComp A8

theorem collectMetrics_walks (env : SnmpEnv) (s s' : Scope) (hc : env.connectErr = none)
    (h : collectMetrics env s = some s') : FetchSeq (fun m => m.desc ≠ upDesc) allWalkOids s s' := by
  unfold collectMetrics at h
  rw [hc] at h
  exact runAllWalks_step env s s' h

theorem collectMetrics_general (env : SnmpEnv) (s s' : Scope)
    (h : collectMetrics env s = some s') :
    s'.target = s.target ∧ (errInv s → errInv s') ∧
    ∃ ms, s'.metrics = s.metrics ++ ms ∧ ∀ m ∈ ms, m.desc ≠ upDesc := by
  unfold collectMetrics at h
  cases hc : env.connectErr with
  | none =>
    rw [hc] at h
    obtain ⟨_, g, i, ms, hm, hp⟩ := runAllWalks_step env s s' h
    exact ⟨g, i, ms, hm, hp⟩
  | some e =>
    simp only [hc] at h
    by_cases hse : s.err = none
    · rw [if_pos hse] at h
      cases h
      exact ⟨rfl, fun hi => recordErr_errInv e hi, [], by simp [recordErr], by simp⟩
    · rw [if_neg hse] at h
      obtain ⟨_, g, i, ms, hm, hp⟩ := runAllWalks_step env (recordErr s e) s' h
      exact ⟨g, fun hi => i (recordErr_errInv e hi), ms, hm, hp⟩

theorem collectForTarget_unfolded (env : SnmpEnv) (t : String) (s'' : Scope)
    (h : collectForTarget env t = some s'') :
    ∃ s', collectMetrics env (initScope t) = some s' ∧ s''.err = s'.err ∧
      s''.errTrace = s'.errTrace ∧ s''.walked = s'.walked ∧ s''.target = s'.target ∧
      s''.interfaceLabels = s'.interfaceLabels ∧
      s''.metrics = s'.metrics ++ [upMetric (if s'.err = none then 1 else 0) t] := by
  unfold collectForTarget at h
  cases hcm : collectMetrics env (initScope t) with
  | none => rw [hcm] at h; cases h
  | some s1 =>
    simp only [hcm] at h
    cases he : s1.err with
    | some e =>
      simp only [he] at h
      cases h
      exact ⟨s1, rfl, by simp [he], rfl, rfl, rfl, rfl, by simp [he]⟩
    | none =>
      simp only [he] at h
      cases h
      exact ⟨s1, rfl, by simp [he], rfl, rfl, rfl, rfl, by simp [he]⟩

/-! The claims. -/

/-- C7: bitsToBytes divides every representable unsigned value by eight
(integer division, no overflow: the result stays representable), and the
identity converter noConvert returns its input unchanged.  Both converter
definitions are modelled from the spec because the repository file that
defines them is not under src/. -/
theorem claim7_converters (v : Nat) (h : v ≤ uintMax) :
    bitsToBytes v = v / 8 ∧ noConvert v = v ∧ bitsToBytes v ≤ uintMax ∧ noConvert v ≤ uintMax :=
  ⟨rfl, rfl, le_trans (Nat.div_le_self v 8) h, h⟩

theorem claim7_witness :
    bitsToBytes uintMax = uintMax / 8 ∧ noConvert uintMax = uintMax ∧
    bitsToBytes uintMax ≤ uintMax ∧ noConvert uintMax ≤ uintMax :=
  claim7_converters uintMax (le_refl uintMax)

/-- C9: the interface row-index key getId is the last dot-separated
component of the row identifier (the whole string when it has no dot), and
both the label handler and the counter handler key rows by exactly getId
of the row name. -/
theorem claim9_getId_last_component :
    (∀ s : String, '.' ∉ s.data → getId s = s) ∧
    (∀ a b : String, '.' ∉ b.data → getId (a ++ "." ++ b) = b) ∧
    (∀ (index : Nat) (d : Desc) (cv : Nat → Nat) (p q : SnmpPDU) (s : Scope),
      getId p.name = getId q.name → p.value = q.value →
      handlePduAsLabel index p s = handlePduAsLabel index q s ∧
      handlePduAsMetric d cv p s = handlePduAsMetric d cv q s) := by
  refine ⟨?_, ?_, ?_⟩
  · intro s hs
    unfold getId
    rw [splitOnDot_no_dot s.data hs]
    rfl
  · intro a b hb
    have hdata : (a ++ "." ++ b).data = a.data ++ '.' :: b.data := by
      rw [String.data_append, String.data_append]
      simp
    unfold getId
    rw [hdata, splitOnDot_last_append, splitOnDot_no_dot b.data hb]
    rfl
  · intro index d cv p q s h1 h2
    constructor
    · unfold handlePduAsLabel
      rw [h1, h2]
    · unfold handlePduAsMetric
      rw [h1, h2]

theorem claim9_witness :
    getId "ifHCInOctets" = "ifHCInOctets" ∧ getId (".1.3.6.1.2.1.2.2.1.10" ++ "." ++ "9") = "9" :=
  ⟨claim9_getId_last_component.1 "ifHCInOctets" (by decide),
   claim9_getId_last_component.2.1 ".1.3.6.1.2.1.2.2.1.10" "9" (by decide)⟩

/-- C2: when session setup fails for a target, the sticky error is the
connect error, no walk is started, no interface metric is emitted, and the
only metric for that target is the reachability metric with value 0. -/
theorem claim2_connect_failure (env : SnmpEnv) (t : String) (e : GoError) (s' : Scope)
    (hc : env.connectErr = some e) (h : collectForTarget env t = some s') :
    s'.err = some e ∧ s'.walked = [] ∧ s'.interfaceLabels = [] ∧
    s'.metrics = [upMetric 0 t] := by
  have key : collectForTarget env t = some ⟨[], t, some e, [upMetric 0 t], [], [e]⟩ := by
    unfold collectForTarget collectMetrics
    rw [hc]
    rfl
  rw [key] at h
  cases h
  exact ⟨rfl, rfl, rfl, rfl⟩

theorem claim2_witness :
    (⟨[], "10.0.0.2", some "connection timeout", [upMetric 0 "10.0.0.2"], [], ["connection timeout"]⟩ :
      Scope).err = some "connection timeout" ∧
    (⟨[], "10.0.0.2", some "connection timeout", [upMetric 0 "10.0.0.2"], [], ["connection timeout"]⟩ :
      Scope).walked = [] ∧
    (⟨[], "10.0.0.2", some "connection timeout", [upMetric 0 "10.0.0.2"], [], ["connection timeout"]⟩ :
      Scope).interfaceLabels = [] ∧
    (⟨[], "10.0.0.2", some "connection timeout", [upMetric 0 "10.0.0.2"], [], ["connection timeout"]⟩ :
      Scope).metrics = [upMetric 0 "10.0.0.2"] :=
  claim2_connect_failure netFailW "10.0.0.2" "connection timeout" _ rfl rfl

/-- C3 counterexample: the row handlers are not total over arbitrary typed
payloads.  A label row carrying an unsigned integer and a counter row
carrying a byte string both make the Go type assertion fail, which panics
(the result none of the embedded handler); and in a full collection run
against netC3, whose label walk delivers one such wrong-typed row, the
whole target collection crashes with no metrics emitted at all — not a
row-level failure. -/
theorem claim3_counterexample :
    handlePduAsLabel 0 ⟨".1.3.6.1.2.1.31.1.1.1.1.9", GoValue.uintv 5⟩ (initScope "10.0.0.1") = none ∧
    handlePduAsMetric receiveBytesDesc bitsToBytes
      ⟨".1.3.6.1.2.1.2.2.1.10.9", GoValue.bytes "ge-0/0/0"⟩ (initScope "10.0.0.1") = none ∧
    collectForTarget netC3 "10.0.0.1" = none :=
  ⟨rfl, rfl, by decide⟩

/-- C3 (amended): the row handlers panic (the unchecked Go type assertion,
modelled by the result none) exactly on a raw value that is not of the
expected type: the label handler succeeds on every byte-string row (at the
source's label slots, under the stored-length invariant the source
maintains) and panics on every other payload, the counter handler succeeds
on every unsigned-integer row and panics on every other payload, and a
handler panic propagates through the walk instead of being a row-level
failure.  Processing is not total over arbitrary typed payloads. -/
theorem claim3_handlers_panic (index : Nat) (p : SnmpPDU) (s : Scope) (d : Desc)
    (cv : Nat → Nat) :
    (p.value.isBytes = false → handlePduAsLabel index p s = none) ∧
    (p.value.isUint = false → handlePduAsMetric d cv p s = none) ∧
    (p.value.isUint = true → handlePduAsMetric d cv p s ≠ none) ∧
    (p.value.isBytes = true → index < numberOfInterfaceLabels → labelLenInvariant s →
      handlePduAsLabel index p s ≠ none) ∧
    (∀ (cb : SnmpPDU → Scope → Option (Scope × Option GoError)) (ps : List SnmpPDU),
      cb p s = none → runWalkRows cb (p :: ps) s = none) := by
  refine ⟨?_, ?_, ?_, ?_, ?_⟩
  · intro hb
    cases hv : p.value with
    | bytes b => rw [hv] at hb; simp [GoValue.isBytes] at hb
    | uintv v => simp [handlePduAsLabel, hv]
    | other => simp [handlePduAsLabel, hv]
  · intro hu
    cases hv : p.value with
    | uintv v => rw [hv] at hu; simp [GoValue.isUint] at hu
    | bytes b => simp [handlePduAsMetric, hv]
    | other => simp [handlePduAsMetric, hv]
  · intro hu
    cases hv : p.value with
    | bytes b => rw [hv] at hu; simp [GoValue.isUint] at hu
    | other => rw [hv] at hu; simp [GoValue.isUint] at hu
    | uintv v =>
      simp only [handlePduAsMetric, hv]
      split <;> simp
  · intro hb hidx hinv
    cases hv : p.value with
    | uintv v => rw [hv] at hb; simp [GoValue.isBytes] at hb
    | other => rw [hv] at hb; simp [GoValue.isBytes] at hb
    | bytes b =>
      simp only [handlePduAsLabel, hv]
      cases hlook : mapLookup s.interfaceLabels (getId p.name) with
      | some l =>
        have hlen : l.len = numberOfInterfaceLabels :=
          hinv (getId p.name, l) (mapLookup_mem _ _ _ hlook)
        rw [if_pos (hlen ▸ hidx)]
        simp
      | none =>
        have hif : index < (makeSlice numberOfInterfaceLabels).len := hidx
        simp [hif]
  · intro cb ps h
    unfold runWalkRows
    rw [h]

theorem claim3_witness :
    handlePduAsLabel 1 ⟨".1.3.6.1.2.1.31.1.1.1.18.4", GoValue.other⟩ (initScope "h") = none ∧
    handlePduAsMetric transmitBytesDesc bitsToBytes
      ⟨".1.3.6.1.2.1.2.2.1.16.4", GoValue.other⟩ (initScope "h") = none ∧
    handlePduAsMetric transmitBytesDesc bitsToBytes
      ⟨".1.3.6.1.2.1.2.2.1.16.9", GoValue.uintv 16⟩ scope10 ≠ none ∧
    handlePduAsLabel 1 ⟨".1.3.6.1.2.1.31.1.1.1.18.9", GoValue.bytes "uplink"⟩ scope10 ≠ none ∧
    runWalkRows (handlePduAsMetric transmitBytesDesc bitsToBytes)
      [⟨".1.3.6.1.2.1.2.2.1.16.4", GoValue.other⟩] (initScope "h") = none :=
  ⟨(claim3_handlers_panic 1 ⟨".1.3.6.1.2.1.31.1.1.1.18.4", GoValue.other⟩ (initScope "h")
      transmitBytesDesc bitsToBytes).1 rfl,
   (claim3_handlers_panic 1 ⟨".1.3.6.1.2.1.2.2.1.16.4", GoValue.other⟩ (initScope "h")
      transmitBytesDesc bitsToBytes).2.1 rfl,
   (claim3_handlers_panic 1 ⟨".1.3.6.1.2.1.2.2.1.16.9", GoValue.uintv 16⟩ scope10
      transmitBytesDesc bitsToBytes).2.2.1 rfl,
   (claim3_handlers_panic 1 ⟨".1.3.6.1.2.1.31.1.1.1.18.9", GoValue.bytes "uplink"⟩ scope10
      transmitBytesDesc bitsToBytes).2.2.2.1 rfl (by decide)
     (by unfold labelLenInvariant; decide),
   (claim3_handlers_panic 1 ⟨".1.3.6.1.2.1.2.2.1.16.4", GoValue.other⟩ (initScope "h")
      transmitBytesDesc bitsToBytes).2.2.2.2
     (handlePduAsMetric transmitBytesDesc bitsToBytes) [] rfl⟩

/-- C4 counterexample: with an environment whose label walks are empty and
whose receive-bytes walk delivers one row with the never-seen index 9, no
receive-bytes metric is emitted at all (in particular none with empty
interface label slots): the row aborts with an inconsistent-label-
cardinality error and the target reports failure. -/
theorem claim4_counterexample :
    (collectForTarget netC4 "10.0.0.1").map
      (fun s => s.metrics.filter (fun m => decide (m.desc = receiveBytesDesc))) = some [] ∧
    (collectForTarget netC4 "10.0.0.1").map (fun s => s.err) =
      some (some "inconsistent label cardinality") := by
  exact ⟨by decide, by decide⟩

/-- C4 (amended): for a counter-walk row whose row index was never seen in
either label walk, no interface metric is emitted for that row: the Go map
lookup yields the nil slice, appending the target produces a single label
value against the three-label descriptor, and metric construction fails
with an inconsistent-label-cardinality error that the row returns to the
walk (the scope is otherwise unchanged). -/
theorem claim4_unknown_row_fails (desc : Desc) (cv : Nat → Nat) (p : SnmpPDU) (v : Nat)
    (s : Scope) (hv : p.value = GoValue.uintv v) (hd : desc.labelNames.length = 3)
    (hl : mapLookup s.interfaceLabels (getId p.name) = none) :
    handlePduAsMetric desc cv p s = some (s, some "inconsistent label cardinality") := by
  simp only [handlePduAsMetric, hv, hl]
  have hview : (goAppend (Option.getD (none : Option GoSlice) nilSlice) s.target).1.view
      = [s.target] := rfl
  rw [hview]
  have hmk : newConstMetric desc (cv v) [s.target] = .error "inconsistent label cardinality" := by
    unfold newConstMetric
    rw [if_neg]
    rw [hd]
    simp
  rw [hmk]

theorem claim4_witness :
    handlePduAsMetric receiveBytesDesc bitsToBytes
      ⟨".1.3.6.1.2.1.2.2.1.10.7", GoValue.uintv 80⟩ (initScope "10.0.0.1") =
      some (initScope "10.0.0.1", some "inconsistent label cardinality") :=
  claim4_unknown_row_fails receiveBytesDesc bitsToBytes
    ⟨".1.3.6.1.2.1.2.2.1.10.7", GoValue.uintv 80⟩ 80 (initScope "10.0.0.1") rfl rfl rfl

/-- C10: emitting interface metrics never mutates the label table.  Every
reachable scope satisfies the length-equals-capacity slice invariant (the
fresh scope trivially, and the label handler preserves it), and under that
invariant the append performed by the counter handler allocates a fresh
backing array, so the label table after the handler is unchanged. -/
theorem claim10_labels_unchanged :
    (∀ t, sliceInvariant (initScope t)) ∧
    (∀ index p s s', sliceInvariant s → handlePduAsLabel index p s = some s' →
      sliceInvariant s') ∧
    (∀ d cv p s r, sliceInvariant s → handlePduAsMetric d cv p s = some r →
      r.1.interfaceLabels = s.interfaceLabels) := by
  refine ⟨?_, ?_, ?_⟩
  · intro t kv hkv
    simp [initScope] at hkv
  · intro index p s s' hinv h
    cases hv : p.value with
    | uintv v => simp [handlePduAsLabel, hv] at h
    | other => simp [handlePduAsLabel, hv] at h
    | bytes b =>
      cases hlook : mapLookup s.interfaceLabels (getId p.name) with
      | some l =>
        simp only [handlePduAsLabel, hv, hlook] at h
        split at h
        · cases h
          intro kv hkv
          rcases mem_mapInsert _ _ _ _ hkv with heq | hmem
          · rw [heq]
            have hl : l.len = l.arr.length := hinv (getId p.name, l) (mapLookup_mem _ _ _ hlook)
            simp [hl]
          · exact hinv kv hmem
        · cases h
      | none =>
        simp only [handlePduAsLabel, hv, hlook] at h
        split at h
        · cases h
          intro kv hkv
          rcases mem_mapInsert _ _ _ _ hkv with heq | hmem
          · rw [heq]
            simp [makeSlice, numberOfInterfaceLabels]
          · exact hinv kv hmem
        · cases h
  · intro d cv p s r hinv h
    cases hv : p.value with
    | bytes b => simp [handlePduAsMetric, hv] at h
    | other => simp [handlePduAsMetric, hv] at h
    | uintv v =>
      cases hlook : mapLookup s.interfaceLabels (getId p.name) with
      | none =>
        simp only [handlePduAsMetric, hv, hlook] at h
        split at h
        · cases h; rfl
        · cases h; rfl
      | some l =>
        have hl : l.len = l.arr.length := hinv (getId p.name, l) (mapLookup_mem _ _ _ hlook)
        have happ : goAppend l s.target = (⟨l.arr.take l.len ++ [s.target], l.len + 1⟩, l) := by
          unfold goAppend
          rw [if_neg (by omega)]
        have hins := mapInsert_lookup_self _ _ _ hlook
        simp only [handlePduAsMetric, hv, hlook, Option.getD_some, happ, hins] at h
        split at h
        · cases h; rfl
        · cases h; rfl

theorem claim10_witness :
    sliceInvariant (initScope "t") ∧
    (handlePduAsMetric receiveBytesDesc noConvert ⟨".9", GoValue.uintv 4⟩ scope10 =
      some (⟨[("9", ⟨["a", "b"], 2⟩)], "t", none,
        [⟨receiveBytesDesc, 4, ["a", "b", "t"]⟩], [], []⟩, none)) ∧
    (⟨[("9", ⟨["a", "b"], 2⟩)], "t", none, [⟨receiveBytesDesc, 4, ["a", "b", "t"]⟩], [], []⟩ :
        Scope).interfaceLabels = scope10.interfaceLabels :=
  ⟨claim10_labels_unchanged.1 "t", by decide,
   claim10_labels_unchanged.2.2 receiveBytesDesc noConvert ⟨".9", GoValue.uintv 4⟩ scope10
     (⟨[("9", ⟨["a", "b"], 2⟩)], "t", none, [⟨receiveBytesDesc, 4, ["a", "b", "t"]⟩], [], []⟩, none)
     (by unfold sliceInvariant; decide) (by decide)⟩

/-- C5: for every completed target collection, the sticky error equals the
first error that was observed (the head of the ghost error trace), so
every later failure leaves it unchanged; and whenever connect succeeded,
all eight walks were started, regardless of any walk failures. -/
theorem claim5_first_error_wins (env : SnmpEnv) (t : String) (s' : Scope)
    (h : collectForTarget env t = some s') :
    s'.err = s'.errTrace.head? ∧ (env.connectErr = none → s'.walked = allWalkOids) := by
  obtain ⟨s1, hcm, herr, htrace, hwalk, _, _, _⟩ := collectForTarget_unfolded env t s' h
  have hinv0 : errInv (initScope t) := rfl
  obtain ⟨_, hi, _⟩ := collectMetrics_general env (initScope t) s1 hcm
  have hinv1 : errInv s1 := hi hinv0
  constructor
  · rw [herr, htrace]
    exact hinv1
  · intro hc
    obtain ⟨hw, _, _, _⟩ := collectMetrics_walks env (initScope t) s1 hc hcm
    rw [hwalk, hw]
    rfl

theorem claim5_witness :
    (⟨[], "h", none, [upMetric 1 "h"], allWalkOids, []⟩ : Scope).err =
      (⟨[], "h", none, [upMetric 1 "h"], allWalkOids, []⟩ : Scope).errTrace.head? ∧
    (netOkW.connectErr = none →
      (⟨[], "h", none, [upMetric 1 "h"], allWalkOids, []⟩ : Scope).walked = allWalkOids) :=
  claim5_first_error_wins netOkW "h" _ (by decide)

/-- C6 counterexample: in netC6, the receive-bytes walk contains a failing
row (unknown index 7) followed by a well-labelled row for index 9, yet no
receive-bytes metric is emitted at all: the failing row aborted that walk,
so the remaining row was not attempted, while the later receive-drops walk
still ran and emitted its metric. -/
theorem claim6_counterexample :
    (collectForTarget netC6 "10.0.0.1").map
      (fun s => s.metrics.filter (fun m => decide (m.desc = receiveBytesDesc))) = some [] ∧
    (collectForTarget netC6 "10.0.0.1").map
      (fun s => s.metrics.filter (fun m => decide (m.desc = receiveDropsDesc))) =
      some [⟨receiveDropsDesc, 5, ["ge-0/0/0", "", "10.0.0.1"]⟩] :=
  ⟨by decide, by decide⟩

/-- C6 (amended): when constructing a metric for one counter row fails, the
row's error aborts that walk, so the remaining rows of the same walk are
skipped; the error is recorded as the sticky error when no earlier error
exists, and the remaining walks for the target are still attempted. -/
theorem claim6_row_failure_aborts_walk :
    (∀ (d : Desc) (cv : Nat → Nat) (p : SnmpPDU) (ps : List SnmpPDU) (s s1 : Scope)
      (e : GoError), handlePduAsMetric d cv p s = some (s1, some e) →
      runWalkRows (handlePduAsMetric d cv) (p :: ps) s = some (s1, some e)) ∧
    (∀ (s : Scope) (e : GoError), s.err = none → (recordErr s e).err = some e) ∧
    (∀ (env : SnmpEnv) (t : String) (s' : Scope), collectForTarget env t = some s' →
      env.connectErr = none → s'.walked = allWalkOids) := by
  refine ⟨?_, ?_, ?_⟩
  · intro d cv p ps s s1 e h
    unfold runWalkRows
    rw [h]
  · intro s e h
    exact recordErr_first e h
  · intro env t s' h hc
    obtain ⟨s1, hcm, _, _, hwalk, _, _, _⟩ := collectForTarget_unfolded env t s' h
    obtain ⟨hw, _, _, _⟩ := collectMetrics_walks env (initScope t) s1 hc hcm
    rw [hwalk, hw]
    rfl

theorem claim6_witness :
    runWalkRows (handlePduAsMetric receiveBytesDesc bitsToBytes)
      [⟨".1.3.6.1.2.1.2.2.1.10.7", GoValue.uintv 80⟩, ⟨".1.3.6.1.2.1.2.2.1.10.9", GoValue.uintv 80⟩]
      (initScope "10.0.0.1") =
      some (initScope "10.0.0.1", some "inconsistent label cardinality") ∧
    (recordErr (initScope "g") "walk failed").err = some "walk failed" ∧
    (⟨[], "g", none, [upMetric 1 "g"], allWalkOids, []⟩ : Scope).walked = allWalkOids :=
  ⟨claim6_row_failure_aborts_walk.1 receiveBytesDesc bitsToBytes
     ⟨".1.3.6.1.2.1.2.2.1.10.7", GoValue.uintv 80⟩
     [⟨".1.3.6.1.2.1.2.2.1.10.9", GoValue.uintv 80⟩] (initScope "10.0.0.1")
     (initScope "10.0.0.1") "inconsistent label cardinality" (by decide),
   claim6_row_failure_aborts_walk.2.1 (initScope "g") "walk failed" rfl,
   claim6_row_failure_aborts_walk.2.2 netOkW "g" _ (by decide) rfl⟩

theorem collectForTarget_up_filter (env : SnmpEnv) (t : String) (s' : Scope)
    (h : collectForTarget env t = some s') :
    s'.metrics.filter (fun m => decide (m.desc = upDesc)) =
      [upMetric (if s'.err = none then 1 else 0) t] := by
  obtain ⟨s1, hcm, herr, _, _, _, _, hmet⟩ := collectForTarget_unfolded env t s' h
  obtain ⟨_, _, ms, hms, hp⟩ := collectMetrics_general env (initScope t) s1 hcm
  have h1 : ms.filter (fun m => decide (m.desc = upDesc)) = [] := by
    rw [List.filter_eq_nil_iff]
    intro a ha
    simp only [decide_eq_true_eq]
    exact hp a ha
  rw [hmet, hms, herr]
  simp only [List.nil_append, List.filter_append, h1]
  have hup : (upMetric (if s1.err = none then 1 else 0) t).desc = upDesc := by
    cases hse : s1.err <;> rfl
  simp [List.filter, hup]

theorem collectForTarget_upFor_count (env : SnmpEnv) (t0 : String) (s0 : Scope)
    (h : collectForTarget env t0 = some s0) (t : String) :
    (s0.metrics.filter (fun m => decide (m.desc = upDesc ∧ m.labels = [t]))).length =
      if t0 = t then 1 else 0 := by
  obtain ⟨s1, hcm, herr, _, _, _, _, hmet⟩ := collectForTarget_unfolded env t0 s0 h
  obtain ⟨_, _, ms, hms, hp⟩ := collectMetrics_general env (initScope t0) s1 hcm
  have h1 : ms.filter (fun m => decide (m.desc = upDesc ∧ m.labels = [t])) = [] := by
    rw [List.filter_eq_nil_iff]
    intro a ha
    simp only [decide_eq_true_eq, not_and]
    intro hd
    exact absurd hd (hp a ha)
  rw [hmet, hms]
  simp only [List.nil_append, List.filter_append, h1, List.nil_append]
  have hup : (upMetric (if s1.err = none then 1 else 0) t0).desc = upDesc := by
    cases hse : s1.err <;> rfl
  have hlab : (upMetric (if s1.err = none then 1 else 0) t0).labels = [t0] := by
    cases hse : s1.err <;> rfl
  by_cases ht : t0 = t
  · subst ht
    simp [List.filter, hup, hlab]
  · have hne : ¬ ([t0] = [t]) := by simp [ht]
    simp [List.filter, hup, hlab, hne, ht]

theorem collect_up_count (net : String → SnmpEnv) :
    ∀ (ts : List String) (ms : List Metric), collect net ts = some ms → ∀ t : String,
      (ms.filter (fun m => decide (m.desc = upDesc ∧ m.labels = [t]))).length = ts.count t
  | [], ms => by
    intro h t
    cases h
    rfl
  | t0 :: ts, ms => by
    intro h t
    unfold collect at h
    cases hct : collectForTarget (net t0) t0 with
    | none => rw [hct] at h; cases h
    | some s0 =>
      simp only [hct] at h
      cases hrest : collect net ts with
      | none => simp only [hrest] at h; cases h
      | some msr =>
        simp only [hrest] at h
        cases h
        rw [List.filter_append, List.length_append]
        rw [collectForTarget_upFor_count (net t0) t0 s0 hct t]
        rw [collect_up_count net ts msr hrest t]
        simp only [List.count_cons, beq_iff_eq]
        by_cases ht : t0 = t
        · subst ht
          simp [Nat.add_comm]
        · have ht2 : ¬ t = t0 := fun hh => ht hh.symm
          simp [ht, ht2]

/-- C1: every completed target collection emits exactly one reachability
metric, labelled with the target address, with value 1 when no sticky
error was recorded for that target and 0 otherwise; and a completed
Collect over a target list emits exactly one reachability metric per
configured target occurrence, labelled with that target. -/
theorem claim1_one_up_metric_per_target :
    (∀ (env : SnmpEnv) (t : String) (s' : Scope), collectForTarget env t = some s' →
      s'.metrics.filter (fun m => decide (m.desc = upDesc)) =
        [upMetric (if s'.err = none then 1 else 0) t]) ∧
    (∀ (net : String → SnmpEnv) (ts : List String) (ms : List Metric),
      collect net ts = some ms → ∀ t : String,
      (ms.filter (fun m => decide (m.desc = upDesc ∧ m.labels = [t]))).length = ts.count t) :=
  ⟨collectForTarget_up_filter, fun net ts ms h t => collect_up_count net ts ms h t⟩

theorem claim1_witness :
    (⟨[], "h", none, [upMetric 1 "h"], allWalkOids, []⟩ : Scope).metrics.filter
        (fun m => decide (m.desc = upDesc)) =
      [upMetric (if (⟨[], "h", none, [upMetric 1 "h"], allWalkOids, []⟩ : Scope).err = none
        then 1 else 0) "h"] ∧
    ([upMetric 1 "h"].filter
        (fun m => decide (m.desc = upDesc ∧ m.labels = ["h"]))).length = ["h"].count "h" :=
  ⟨claim1_one_up_metric_per_target.1 netOkW "h" _ (by decide),
   claim1_one_up_metric_per_target.2 (fun _ => netOkW) ["h"] [upMetric 1 "h"] (by decide) "h"⟩

/-- C8: Describe emits exactly the fixed seven descriptors, independent of
the collector configuration; the walked tables are bit-exactly the two
label OIDs followed by the six counter OIDs; and the engine's walk
sequence coincides with folding the spec's label-walk and counter-walk
binding lists (each counter OID bound to its descriptor and converter, the
name label at slot 0 and the description label at slot 1). -/
theorem claim8_describe_and_bindings :
    (∀ c : JunosCollector, describe c =
      [⟨"junos_up", "Scrape of target was successful", ["target"]⟩,
       ⟨"junos_interface_receive_bytes", "Received data in bytes",
         ["name", "description", "target"]⟩,
       ⟨"junos_interface_receive_errors", "Number of errors caused by incoming packets",
         ["name", "description", "target"]⟩,
       ⟨"junos_interface_receive_drops", "Number of dropped incoming packets",
         ["name", "description", "target"]⟩,
       ⟨"junos_interface_transmit_bytes", "Transmitted data in bytes",
         ["name", "description", "target"]⟩,
       ⟨"junos_interface_transmit_drops", "Number of dropped outgoing packets",
         ["name", "description", "target"]⟩,
       ⟨"junos_interface_transmit_errors", "Number of errors caused by outgoing packets",
         ["name", "description", "target"]⟩] ∧ (describe c).length = 7) ∧
    allWalkOids = [".1.3.6.1.2.1.31.1.1.1.1", ".1.3.6.1.2.1.31.1.1.1.18",
      ".1.3.6.1.2.1.2.2.1.10", ".1.3.6.1.2.1.2.2.1.16", ".1.3.6.1.2.1.2.2.1.13",
      ".1.3.6.1.2.1.2.2.1.14", ".1.3.6.1.2.1.2.2.1.19", ".1.3.6.1.2.1.2.2.1.20"] ∧
    (∀ (env : SnmpEnv) (s : Scope),
      runAllWalks env s = walkSeqOfLists env specLabelWalks specCounterWalks s) :=
  ⟨fun _c => ⟨rfl, rfl⟩, rfl, fun _env _s => rfl⟩

end JunosExporter


